import Mathlib

/-!
Shallow embedding of the ts-rate-limiter decision engine and its storage
drivers, and proofs about the spec's claims.

Modelling conventions, shared by all definitions below:
* Timestamps and durations (`Date.now()`, `windowMs`, `resetTime`) are `Int`
  milliseconds; each operation takes the clock value `now` it observes as an
  explicit argument (one reading per call, matching the synchronous body).
* JavaScript floating-point token arithmetic is embedded as exact rational
  (`ℚ`) arithmetic.
* The per-key maps (`records`, `timestamps`, `tokenBuckets`) are modelled by
  the state attached to one key: every operation of the source touches keys
  independently, so a single key's state evolution is exactly the projection
  of the whole map's evolution.
* `async` methods of the source never interleave mid-body (they only await
  already-resolved in-process promises for the memory driver), so each method
  is a pure state transformer.
-/

namespace TsRateLimiter

/-- A stored window record `{count, resetTime}` (types.ts `RateLimitRecord`,
memory.ts `records` map values). -/
structure WindowRecord where
  count : Nat
  resetTime : Int
deriving Repr, DecidableEq

namespace MemoryStorage

/-- The state `MemoryStorage` keeps for one key: the entry of the `records`
map and the entry of the `timestamps` map (absent log ≈ empty log, since every
read is `this.timestamps.get(key) || []`). -/
structure KeyState where
  record : Option WindowRecord
  timestamps : List Int
deriving Repr, DecidableEq

/-- The state of a key no increment has touched (or that was deleted). -/
def KeyState.fresh : KeyState := { record := none, timestamps := [] }

/-- memory.ts `MemoryStorage.increment`: if no record exists or the stored
window expired (`now > record.resetTime`), atomically install
`{count: 1, resetTime: now + windowMs}` and reset the log to `[now]`;
otherwise bump the count and append `now` to the log. -/
def increment (windowMs now : Int) (s : KeyState) : WindowRecord × KeyState :=
  match s.record with
  | none =>
      ({ count := 1, resetTime := now + windowMs },
       { record := some { count := 1, resetTime := now + windowMs }, timestamps := [now] })
  | some record =>
      if record.resetTime < now then
        ({ count := 1, resetTime := now + windowMs },
         { record := some { count := 1, resetTime := now + windowMs }, timestamps := [now] })
      else
        ({ count := record.count + 1, resetTime := record.resetTime },
         { record := some { count := record.count + 1, resetTime := record.resetTime },
           timestamps := s.timestamps ++ [now] })

/-- memory.ts `MemoryStorage.reset`: delete both map entries for the key. -/
def reset (_s : KeyState) : KeyState := KeyState.fresh

/-- memory.ts `MemoryStorage.getSlidingWindowCount`: length of the log
filtered to timestamps strictly newer than `now - windowMs`. -/
def getSlidingWindowCount (windowMs now : Int) (s : KeyState) : Nat :=
  (s.timestamps.filter fun time => decide (now - windowMs < time)).length

/-- memory.ts `MemoryStorage.cleanExpired`, projected to one key: drop the
record if its window expired (`now > resetTime`), and trim the log to entries
newer than the fixed one-hour retention horizon `now - 3600000` (the source
deletes an emptied log entry, which in this per-key view is the empty log). -/
def cleanExpired (now : Int) (s : KeyState) : KeyState :=
  { record :=
      match s.record with
      | some r => if r.resetTime < now then none else some r
      | none => none,
    timestamps := s.timestamps.filter fun time => decide (now - 3600000 < time) }

end MemoryStorage

/-- The three admission algorithms of types.ts `RateLimitAlgorithm`. -/
inductive Alg
  | fixedWindow
  | slidingWindow
  | tokenBucket
deriving Repr, DecidableEq

/-- One entry of the engine's `tokenBuckets` map:
`{tokens: number, lastRefill: number}`. -/
structure Bucket where
  tokens : ℚ
  lastRefill : Int
deriving Repr, DecidableEq

/-- The decision record returned by every check (types.ts `RateLimitResult`). -/
structure RateLimitResult where
  allowed : Bool
  current : Int
  limit : Nat
  remaining : Int
  resetTime : Int
deriving Repr, DecidableEq

instance : Inhabited RateLimitResult :=
  ⟨{ allowed := false, current := 0, limit := 0, remaining := 0, resetTime := 0 }⟩

/-- The engine configuration fixed at construction (rate-limiter.ts
constructor): window size, request ceiling, algorithm, draft-mode flag.
The constructor installs `tokenBucketOptions = {capacity: maxRequests,
refillRate: maxRequests / (windowMs / 1000) / 1000}` exactly when the
algorithm is `token-bucket`; `capacity` and `refillRate` below are those
fields. -/
structure Config where
  windowMs : Int
  maxRequests : Nat
  algorithm : Alg
  draftMode : Bool
deriving Repr, DecidableEq

/-- Source field `tokenBucketOptions.capacity = this.maxRequests`. -/
def Config.capacity (cfg : Config) : Nat := cfg.maxRequests

/-- Source field `tokenBucketOptions.refillRate = maxRequests / (windowMs / 1000) / 1000`
(tokens per millisecond), evaluated in exact rational arithmetic. -/
def Config.refillRate (cfg : Config) : ℚ :=
  (cfg.maxRequests : ℚ) / ((cfg.windowMs : ℚ) / 1000) / 1000

namespace RateLimiter

/-- The engine-side state attached to one key when the storage provider is the
default `MemoryStorage`: the storage key state plus the `tokenBuckets` map
entry. -/
structure KeyState where
  mem : MemoryStorage.KeyState
  bucket : Option Bucket
deriving Repr, DecidableEq

/-- A key nobody has touched on a freshly constructed engine. -/
def KeyState.fresh : KeyState := { mem := MemoryStorage.KeyState.fresh, bucket := none }

/-- rate-limiter.ts `RateLimiter.checkFixedWindow`, over the memory driver:
increment, then allow iff `count <= maxRequests` (always allow in draft
mode). -/
def checkFixedWindow (cfg : Config) (now : Int) (s : KeyState) : RateLimitResult × KeyState :=
  let p := MemoryStorage.increment cfg.windowMs now s.mem
  let allowed := if cfg.draftMode then true else decide (p.1.count ≤ cfg.maxRequests)
  ({ allowed := allowed,
     current := (p.1.count : Int),
     limit := cfg.maxRequests,
     remaining := max 0 (p.1.resetTime - now),
     resetTime := p.1.resetTime },
   { s with mem := p.2 })

/-- rate-limiter.ts `RateLimiter.checkSlidingWindow`, over the memory driver
(which always provides `getSlidingWindowCount`, so the fallback guard at the
top of the source method is not taken): record the hit with `increment`, then
take the sliding count as the authoritative figure. -/
def checkSlidingWindow (cfg : Config) (now : Int) (s : KeyState) : RateLimitResult × KeyState :=
  let p := MemoryStorage.increment cfg.windowMs now s.mem
  let count := MemoryStorage.getSlidingWindowCount cfg.windowMs now p.2
  let allowed := if cfg.draftMode then true else decide (count ≤ cfg.maxRequests)
  ({ allowed := allowed,
     current := (count : Int),
     limit := cfg.maxRequests,
     remaining := cfg.windowMs,
     resetTime := now + cfg.windowMs },
   { s with mem := p.2 })

/-- rate-limiter.ts `RateLimiter.checkTokenBucket`, acting on the
`tokenBuckets` entry of the key (the `!this.tokenBucketOptions` fallback is
unreachable here because the engine dispatches to this method only when the
algorithm is `token-bucket`, in which case the constructor set the options):
create a full bucket on first sight, refill by elapsed time, decide, and
consume one token on a non-draft allow. The refill block of the method body
(`timeElapsed`/`tokensToAdd`/`Math.min` cap) is factored out as
`refillBucket`. -/
def refillBucket (cfg : Config) (now : Int) (bucket : Bucket) : Bucket :=
  let timeElapsed : Int := now - bucket.lastRefill
  let tokensToAdd : ℚ := (timeElapsed : ℚ) * cfg.refillRate
  if 0 < tokensToAdd then
    { tokens := min (bucket.tokens + tokensToAdd) (cfg.capacity : ℚ), lastRefill := now }
  else bucket

def checkTokenBucket (cfg : Config) (now : Int) (b0 : Option Bucket) : RateLimitResult × Bucket :=
  let bucket := b0.getD { tokens := (cfg.capacity : ℚ), lastRefill := now }
  let bucket := refillBucket cfg now bucket
  let allowed := if cfg.draftMode then true else decide (1 ≤ bucket.tokens)
  let bucket :=
    if allowed && !cfg.draftMode then { bucket with tokens := bucket.tokens - 1 } else bucket
  let msUntilNextToken : Int :=
    if (cfg.capacity : ℚ) ≤ bucket.tokens then cfg.windowMs else ⌈1 / cfg.refillRate⌉
  ({ allowed := allowed,
     current := (cfg.capacity : Int) - ⌊bucket.tokens⌋,
     limit := cfg.capacity,
     remaining := msUntilNextToken,
     resetTime := now + msUntilNextToken },
   bucket)

/-- rate-limiter.ts `RateLimiter.check`, specialized to the default
`MemoryStorage` provider and a caller-supplied key (no `skip` predicate is
configured, the key generator is the identity on the given key, and every
memory-driver operation is total, so the surrounding try/catch never fires).
`maxRequests = 0` blocks unconditionally before any storage access; otherwise
dispatch on the algorithm — the sliding branch's capability probe
`this.storage.getSlidingWindowCount` succeeds for the memory driver. -/
def check (cfg : Config) (now : Int) (s : KeyState) : RateLimitResult × KeyState :=
  if cfg.maxRequests = 0 then
    ({ allowed := false, current := 1, limit := 0,
       remaining := cfg.windowMs, resetTime := now + cfg.windowMs }, s)
  else if cfg.algorithm = Alg.slidingWindow then
    checkSlidingWindow cfg now s
  else if cfg.algorithm = Alg.tokenBucket then
    let p := checkTokenBucket cfg now s.bucket
    (p.1, { s with bucket := some p.2 })
  else
    checkFixedWindow cfg now s

/-- rate-limiter.ts `RateLimiter.consume`: same dispatch as `check` but with
no `maxRequests = 0` short-circuit and no skip/catch wrapper. -/
def consume (cfg : Config) (now : Int) (s : KeyState) : RateLimitResult × KeyState :=
  if cfg.algorithm = Alg.slidingWindow then
    checkSlidingWindow cfg now s
  else if cfg.algorithm = Alg.tokenBucket then
    let p := checkTokenBucket cfg now s.bucket
    (p.1, { s with bucket := some p.2 })
  else
    checkFixedWindow cfg now s

/-- rate-limiter.ts `RateLimiter.reset`: clear the storage record, and delete
the local bucket entry when the algorithm is `token-bucket`. -/
def reset (cfg : Config) (s : KeyState) : KeyState :=
  let s' : KeyState := { s with mem := MemoryStorage.reset s.mem }
  if cfg.algorithm = Alg.tokenBucket then { s' with bucket := none } else s'

/-- rate-limiter.ts `RateLimiter.resetAll`: clear the `tokenBuckets` map when
the algorithm is `token-bucket`, then invoke the storage provider's
`cleanExpired` (present on the memory driver). -/
def resetAll (cfg : Config) (now : Int) (s : KeyState) : KeyState :=
  let s' : KeyState := if cfg.algorithm = Alg.tokenBucket then { s with bucket := none } else s
  { s' with mem := MemoryStorage.cleanExpired now s'.mem }

/-- rate-limiter.ts `RateLimiter.dispose`: the memory driver's `dispose` only
cancels its cleanup timer (no per-key state change), then the engine clears
the `tokenBuckets` map. -/
def dispose (s : KeyState) : KeyState := { s with bucket := none }

/-- One public engine operation on a key, with the clock value it observes. -/
inductive Op
  | check (now : Int)
  | consume (now : Int)
  | reset
  | resetAll (now : Int)
  | dispose
deriving Repr, DecidableEq

/-- The state transformation of one public operation (decision record
discarded). -/
def applyOp (cfg : Config) (s : KeyState) : Op → KeyState
  | Op.check now => (check cfg now s).2
  | Op.consume now => (consume cfg now s).2
  | Op.reset => reset cfg s
  | Op.resetAll now => resetAll cfg now s
  | Op.dispose => dispose s

/-- Run a sequence of public operations from a starting key state. -/
def runOps (cfg : Config) (ops : List Op) (s : KeyState) : KeyState :=
  ops.foldl (applyOp cfg) s

/-- Run one `check` per clock value in the list, returning every decision
record in order together with the final key state. -/
def runChecks (cfg : Config) : List Int → KeyState → List RateLimitResult × KeyState
  | [], s => ([], s)
  | t :: ts, s =>
      let p := check cfg t s
      let q := runChecks cfg ts p.2
      (p.1 :: q.1, q.2)

end RateLimiter

/-- The spec's post-refill token count: the stored tokens plus
`elapsed_ms × (maxRequests / (windowMs / 1000) / 1000)`, capped at the
capacity `maxRequests`. -/
def postRefill (cfg : Config) (b : Bucket) (now : Int) : ℚ :=
  min (b.tokens + ((now - b.lastRefill : Int) : ℚ)
        * ((cfg.maxRequests : ℚ) / ((cfg.windowMs : ℚ) / 1000) / 1000))
      (cfg.maxRequests : ℚ)

/-- The C5 invariant: whatever bucket the engine holds for the key has a token
count within `[0, capacity]`. -/
def BucketInv (cfg : Config) (s : RateLimiter.KeyState) : Prop :=
  ∀ b, s.bucket = some b → 0 ≤ b.tokens ∧ b.tokens ≤ (cfg.capacity : ℚ)

/-! Generic storage providers and the engine over them, for the claims about
the per-call capability probe and the ceiling-0 short-circuit. -/

/-- A storage provider as the engine sees it (types.ts `StorageProvider`): a
mandatory `increment` and an optional `getSlidingWindowCount` member. Either
may fail (`Except.error`), and a failing call still returns the state as
mutated so far. `slidingWindowCount?` is `none` exactly when the provider
does not declare the optional member — the engine probes
`this.storage.getSlidingWindowCount` for truthiness on every call. -/
structure StorageModel (σ : Type) where
  increment : Int → Int → σ → Except String WindowRecord × σ
  slidingWindowCount? : Option (Int → Int → σ → Except String Nat × σ)

/-- The memory driver as a `StorageModel`: total operations, optional member
present. -/
def MemoryStorage.model : StorageModel MemoryStorage.KeyState :=
  { increment := fun windowMs now s =>
      (Except.ok (MemoryStorage.increment windowMs now s).1,
       (MemoryStorage.increment windowMs now s).2),
    slidingWindowCount? := some fun windowMs now s =>
      (Except.ok (MemoryStorage.getSlidingWindowCount windowMs now s), s) }

/-- A provider that does not declare the optional `getSlidingWindowCount`
member (the member is optional on types.ts `StorageProvider`): the memory
driver's `increment` with no sliding support. -/
def fixedOnlyModel : StorageModel MemoryStorage.KeyState :=
  { increment := MemoryStorage.model.increment,
    slidingWindowCount? := none }

/-- The per-key server-side state a `RedisStorage` instance manipulates: the
counter key (value and absolute expiry deadline, in ms) and the `:window`
sorted set of timestamp scores with its own deadline. Commands are modelled
against a reachable server (transport failures are outside the claims settled
here); an expired counter key is dropped lazily when a command touches it, as
the server does. -/
structure RedisKeyState where
  value : Option (Nat × Option Int)
  window : List Int
  windowExpireAt : Option Int
deriving Repr, DecidableEq

namespace RedisStorage

/-- Lazy expiry of the counter key at time `now`. -/
def expireCounter (now : Int) (s : RedisKeyState) : RedisKeyState :=
  { s with value :=
      match s.value with
      | some (v, some d) => if d ≤ now then none else some (v, some d)
      | o => o }

/-- redis.ts embedded Lua script: `INCR`; `TTL`; when this is a first
increment or the key has no expiry, `PEXPIRE windowMs` and report
`ttl = windowMs / 1000`. Returns `(count, ttl-seconds)` and the new key
state. -/
def evalLua (windowMs now : Int) (s : RedisKeyState) : (Nat × Int) × RedisKeyState :=
  let s1 := expireCounter now s
  let count := (match s1.value with | some v => v.1 | none => 0) + 1
  let ex := match s1.value with | some v => v.2 | none => none
  let ttl : Int := match ex with | none => -1 | some d => (d - now) / 1000
  if count = 1 ∨ ttl < 0 then
    ((count, windowMs / 1000), { s1 with value := some (count, some (now + windowMs)) })
  else
    ((count, ttl), { s1 with value := some (count, ex) })

/-- redis.ts `RedisStorage.incrementSlidingWindow`: `ZADD` the current
timestamp, prune scores in `[0, now - windowMs]`, `ZCARD`, refresh the set's
expiry. Scores are kept as a list; adding an already-present member is a
no-op, as in a sorted set. -/
def incrementSlidingWindow (windowMs now : Int) (s : RedisKeyState) :
    Except String WindowRecord × RedisKeyState :=
  let w1 := if now ∈ s.window then s.window else s.window ++ [now]
  let w2 := w1.filter fun x => !(decide (0 ≤ x) && decide (x ≤ now - windowMs))
  (Except.ok { count := w2.length, resetTime := now + windowMs },
   { s with window := w2, windowExpireAt := some (now + windowMs) })

/-- redis.ts `RedisStorage.increment`: the sliding path when the capability
flag is on, otherwise the atomic Lua-script path
(`resetTime = now + ttl × 1000`). -/
def increment (enabled : Bool) (windowMs now : Int) (s : RedisKeyState) :
    Except String WindowRecord × RedisKeyState :=
  if enabled then incrementSlidingWindow windowMs now s
  else
    let p := evalLua windowMs now s
    (Except.ok { count := p.1.1, resetTime := now + p.1.2 * 1000 }, p.2)

/-- redis.ts `RedisStorage.getSlidingWindowCount` (lines 165–189): when the
instance was constructed without sliding-window support it throws
immediately; otherwise it prunes scores in `[0, now - windowMs]` and returns
the set's cardinality. -/
def getSlidingWindowCount (enabled : Bool) (windowMs now : Int) (s : RedisKeyState) :
    Except String Nat × RedisKeyState :=
  if !enabled then
    (Except.error "Sliding window not enabled for this Redis storage instance", s)
  else
    let w2 := s.window.filter fun x => !(decide (0 ≤ x) && decide (x ≤ now - windowMs))
    (Except.ok w2.length, { s with window := w2 })

/-- A `RedisStorage` instance as a `StorageModel`. The optional member is
always present — the class defines the method whether or not the capability
flag `enableSlidingWindow` was set at construction. -/
def model (enabled : Bool) : StorageModel RedisKeyState :=
  { increment := increment enabled,
    slidingWindowCount? := some (getSlidingWindowCount enabled) }

end RedisStorage

namespace RateLimiter

/-- rate-limiter.ts `RateLimiter.createAllowedResult`: the allow-through
record used by the skip and failure paths. -/
def createAllowedResult (cfg : Config) (now : Int) : RateLimitResult :=
  { allowed := true, current := 0, limit := cfg.maxRequests,
    remaining := cfg.windowMs, resetTime := now + cfg.windowMs }

/-- rate-limiter.ts `RateLimiter.checkFixedWindow` over an arbitrary
provider. -/
def checkFixedWindowE {σ : Type} (cfg : Config) (st : StorageModel σ) (now : Int) (s : σ) :
    Except String RateLimitResult × σ :=
  match st.increment cfg.windowMs now s with
  | (Except.error e, s1) => (Except.error e, s1)
  | (Except.ok r, s1) =>
      (Except.ok { allowed := if cfg.draftMode then true else decide (r.count ≤ cfg.maxRequests),
                   current := (r.count : Int), limit := cfg.maxRequests,
                   remaining := max 0 (r.resetTime - now), resetTime := r.resetTime }, s1)

/-- rate-limiter.ts `RateLimiter.checkSlidingWindow` over an arbitrary
provider: fall back to the fixed-window path when the optional member is
absent, otherwise record the hit and ask for the sliding count. -/
def checkSlidingWindowE {σ : Type} (cfg : Config) (st : StorageModel σ) (now : Int) (s : σ) :
    Except String RateLimitResult × σ :=
  match st.slidingWindowCount? with
  | none => checkFixedWindowE cfg st now s
  | some swc =>
      match st.increment cfg.windowMs now s with
      | (Except.error e, s1) => (Except.error e, s1)
      | (Except.ok _, s1) =>
          match swc cfg.windowMs now s1 with
          | (Except.error e, s2) => (Except.error e, s2)
          | (Except.ok count, s2) =>
              (Except.ok { allowed := if cfg.draftMode then true
                             else decide (count ≤ cfg.maxRequests),
                           current := (count : Int), limit := cfg.maxRequests,
                           remaining := cfg.windowMs, resetTime := now + cfg.windowMs }, s2)

/-- rate-limiter.ts `RateLimiter.check` over an arbitrary provider, with its
surrounding try/catch: the ceiling-0 short-circuit comes first; the sliding
branch is taken exactly when the algorithm is sliding-window and the provider
exposes the optional member (the per-call truthiness probe); an error
escaping the body yields `createAllowedResult` when `skipFailedRequests` is
set and propagates otherwise (state mutations made before the error are
kept). -/
def checkE {σ : Type} (cfg : Config) (st : StorageModel σ) (skipFailedRequests : Bool)
    (now : Int) (s : σ) (b : Option Bucket) :
    Except String RateLimitResult × σ × Option Bucket :=
  let r :=
    if cfg.maxRequests = 0 then
      (Except.ok { allowed := false, current := 1, limit := 0,
                   remaining := cfg.windowMs, resetTime := now + cfg.windowMs }, s, b)
    else if cfg.algorithm = Alg.slidingWindow ∧ st.slidingWindowCount?.isSome then
      let p := checkSlidingWindowE cfg st now s
      (p.1, p.2, b)
    else if cfg.algorithm = Alg.tokenBucket then
      let p := checkTokenBucket cfg now b
      (Except.ok p.1, s, some p.2)
    else
      let p := checkFixedWindowE cfg st now s
      (p.1, p.2, b)
  match r with
  | (Except.error e, s1, b1) =>
      if skipFailedRequests then (Except.ok (createAllowedResult cfg now), s1, b1)
      else (Except.error e, s1, b1)
  | (Except.ok v, s1, b1) => (Except.ok v, s1, b1)

end RateLimiter

/-! ## Claim C6: the sliding-window count is the count of timestamps in the
half-open interval `(now - windowMs, now]`. -/

/-- C6: for every key, `MemoryStorage.getSlidingWindowCount` evaluated at time
`now` returns exactly the number of recorded timestamps lying in the half-open
interval `(now - windowMs, now]`, provided every recorded timestamp is
`≤ now`. -/
theorem c6_sliding_count_counts_interval (windowMs now : Int) (s : MemoryStorage.KeyState)
    (h : ∀ x ∈ s.timestamps, x ≤ now) :
    MemoryStorage.getSlidingWindowCount windowMs now s
      = s.timestamps.countP (fun x => decide (now - windowMs < x ∧ x ≤ now)) := by
  unfold MemoryStorage.getSlidingWindowCount
  rw [← List.countP_eq_length_filter]
  exact List.countP_congr (by simp +contextual [h])

/-- Witness for C6: three timestamps at 100, 600 and 1000, window 500 ms,
evaluated at time 1000: exactly the two in `(500, 1000]` are counted. -/
theorem c6_witness :
    MemoryStorage.getSlidingWindowCount 500 1000 { record := none, timestamps := [100, 600, 1000] }
      = List.countP (fun x => decide (1000 - 500 < x ∧ x ≤ 1000)) [100, 600, 1000] :=
  c6_sliding_count_counts_interval 500 1000
    { record := none, timestamps := [100, 600, 1000] } (by decide)

/-! ## Claim C7: rollover replaces an expired record with count 1; within a
live window the stored count never decreases. -/

/-- C7: with the in-memory store, if a key's stored `resetTime` has passed
(`now > resetTime`), the next `increment` atomically replaces the record with
`{count: 1, resetTime: now + windowMs}` (and the log with `[now]`), and the
fixed-window check built on it reports `current = 1`; while the window is
still live (`now ≤ resetTime`), `increment` bumps the stored count to
`count + 1`, so the stored count never decreases. -/
theorem c7_rollover_resets_count_and_live_monotone (cfg : Config) (now : Int)
    (s : RateLimiter.KeyState) (r : WindowRecord) (hr : s.mem.record = some r) :
    (r.resetTime < now →
      MemoryStorage.increment cfg.windowMs now s.mem
        = ({ count := 1, resetTime := now + cfg.windowMs },
           { record := some { count := 1, resetTime := now + cfg.windowMs },
             timestamps := [now] })
      ∧ (RateLimiter.checkFixedWindow cfg now s).1.current = 1)
    ∧ (now ≤ r.resetTime →
      (MemoryStorage.increment cfg.windowMs now s.mem).2.record
          = some { count := r.count + 1, resetTime := r.resetTime }
      ∧ r.count ≤ (MemoryStorage.increment cfg.windowMs now s.mem).1.count) := by
  constructor
  · intro hlt
    constructor
    · unfold MemoryStorage.increment
      rw [hr]
      simp [hlt]
    · unfold RateLimiter.checkFixedWindow MemoryStorage.increment
      rw [hr]
      simp [hlt]
  · intro hle
    unfold MemoryStorage.increment
    rw [hr]
    simp [not_lt.mpr hle]

/-- Witness for C7: a record whose window (reset time 10) has passed by time
20 is replaced by a fresh record `{count: 1, resetTime: 20 + 1000}`. -/
theorem c7_witness :
    MemoryStorage.increment 1000 20 { record := some { count := 2, resetTime := 10 }, timestamps := [5] }
      = ({ count := 1, resetTime := 1020 },
         { record := some { count := 1, resetTime := 1020 }, timestamps := [20] }) :=
  ((c7_rollover_resets_count_and_live_monotone
      { windowMs := 1000, maxRequests := 5, algorithm := Alg.fixedWindow, draftMode := false } 20
      { mem := { record := some { count := 2, resetTime := 10 }, timestamps := [5] }, bucket := none }
      { count := 2, resetTime := 10 } rfl).1 (by decide)).1

/-! ## Claim C4: token-bucket refill, cap, admission and consumption. -/

/-- C4: in token-bucket mode, a check on a key with an existing bucket first
refills it by `elapsed_ms × (maxRequests / (windowMs / 1000) / 1000)` tokens
capped at the capacity `maxRequests`; outside draft mode it allows the call
iff the post-refill count is ≥ 1 and consumes exactly one token on an allowed
call; in draft mode the call is allowed and no token is consumed. (Stated for
a monotone clock reading and a bucket within capacity, which is how every
bucket the engine creates evolves; see C5.) -/
theorem c4_token_bucket_refill_and_consume (cfg : Config) (b : Bucket) (now : Int)
    (hmono : b.lastRefill ≤ now) (hcap : b.tokens ≤ (cfg.capacity : ℚ))
    (hw : 0 < cfg.windowMs) (hm : 1 ≤ cfg.maxRequests) :
    (cfg.draftMode = false →
      (RateLimiter.checkTokenBucket cfg now (some b)).1.allowed
          = decide (1 ≤ postRefill cfg b now)
      ∧ (RateLimiter.checkTokenBucket cfg now (some b)).2.tokens
          = (if 1 ≤ postRefill cfg b now then postRefill cfg b now - 1 else postRefill cfg b now))
    ∧ (cfg.draftMode = true →
      (RateLimiter.checkTokenBucket cfg now (some b)).1.allowed = true
      ∧ (RateLimiter.checkTokenBucket cfg now (some b)).2.tokens = postRefill cfg b now) := by
  have hwq : (0 : ℚ) < (cfg.windowMs : ℚ) := by exact_mod_cast hw
  have hmq : (0 : ℚ) < (cfg.maxRequests : ℚ) := by exact_mod_cast hm
  have hrate : 0 < cfg.refillRate := by
    unfold Config.refillRate
    have h1 : (0 : ℚ) < (cfg.windowMs : ℚ) / 1000 := by positivity
    positivity
  have helq : (0 : ℚ) ≤ ((now - b.lastRefill : Int) : ℚ) := by
    have h2 : (0 : Int) ≤ now - b.lastRefill := by omega
    exact_mod_cast h2
  have hpost : (RateLimiter.refillBucket cfg now b).tokens = postRefill cfg b now := by
    unfold RateLimiter.refillBucket
    by_cases hadd : 0 < ((now - b.lastRefill : Int) : ℚ) * cfg.refillRate
    · rw [if_pos hadd]
      rfl
    · rw [if_neg hadd]
      have hz : ((now - b.lastRefill : Int) : ℚ) * cfg.refillRate = 0 := by
        have h3 := mul_nonneg helq (le_of_lt hrate)
        linarith [not_lt.mp hadd]
      unfold postRefill
      unfold Config.refillRate at hz
      rw [hz, add_zero]
      exact (min_eq_left hcap).symm
  constructor
  · intro hd
    unfold RateLimiter.checkTokenBucket
    simp only [Option.getD_some, hd, Bool.false_eq_true, if_false, Bool.not_false, Bool.and_true]
    simp only [hpost]
    by_cases hone : 1 ≤ postRefill cfg b now
    · simp [hone, hpost]
    · simp [hone, hpost]
  · intro hd
    unfold RateLimiter.checkTokenBucket
    simp only [Option.getD_some, hd, if_true, Bool.not_true, Bool.and_false,
      Bool.false_eq_true, if_false]
    simp [hpost]

/-- Witness for C4: capacity 5, window 1000 ms (rate 0.005 tokens/ms), bucket
holding 2 tokens last refilled at 0, checked at time 1000: refill adds 5,
capped at 5; the call is allowed and one token is consumed. -/
theorem c4_witness :
    (RateLimiter.checkTokenBucket
        { windowMs := 1000, maxRequests := 5, algorithm := Alg.tokenBucket, draftMode := false }
        1000 (some { tokens := 2, lastRefill := 0 })).1.allowed
      = decide (1 ≤ postRefill
          { windowMs := 1000, maxRequests := 5, algorithm := Alg.tokenBucket, draftMode := false }
          { tokens := 2, lastRefill := 0 } 1000) :=
  ((c4_token_bucket_refill_and_consume
      { windowMs := 1000, maxRequests := 5, algorithm := Alg.tokenBucket, draftMode := false }
      { tokens := 2, lastRefill := 0 } 1000 (by decide) (by norm_num [Config.capacity])
      (by decide) (by decide)).1 rfl).1

/-! ## Claim C5: the token count never leaves `[0, capacity]`. -/

/-- The refill stage keeps the token count within `[0, capacity]` for any
clock reading (a non-positive refill amount leaves the bucket untouched). -/
theorem refillBucket_preserves_bounds (cfg : Config) (now : Int) (b : Bucket)
    (h0 : 0 ≤ b.tokens) (h1 : b.tokens ≤ (cfg.capacity : ℚ)) :
    0 ≤ (RateLimiter.refillBucket cfg now b).tokens
    ∧ (RateLimiter.refillBucket cfg now b).tokens ≤ (cfg.capacity : ℚ) := by
  have hcap0 : (0 : ℚ) ≤ (cfg.capacity : ℚ) := by positivity
  unfold RateLimiter.refillBucket
  by_cases hpos : 0 < ((now - b.lastRefill : Int) : ℚ) * cfg.refillRate
  · rw [if_pos hpos]
    exact ⟨le_min (by linarith) hcap0, min_le_right _ _⟩
  · rw [if_neg hpos]
    exact ⟨h0, h1⟩

theorem checkTokenBucket_preserves_bounds (cfg : Config) (now : Int) (b0 : Option Bucket)
    (h : ∀ b, b0 = some b → 0 ≤ b.tokens ∧ b.tokens ≤ (cfg.capacity : ℚ)) :
    0 ≤ (RateLimiter.checkTokenBucket cfg now b0).2.tokens
    ∧ (RateLimiter.checkTokenBucket cfg now b0).2.tokens ≤ (cfg.capacity : ℚ) := by
  have hcap0 : (0 : ℚ) ≤ (cfg.capacity : ℚ) := by positivity
  have hb : 0 ≤ (b0.getD { tokens := (cfg.capacity : ℚ), lastRefill := now }).tokens
      ∧ (b0.getD { tokens := (cfg.capacity : ℚ), lastRefill := now }).tokens
          ≤ (cfg.capacity : ℚ) := by
    cases b0 with
    | none => exact ⟨hcap0, le_refl _⟩
    | some b => exact h b rfl
  have h1 := refillBucket_preserves_bounds cfg now
    (b0.getD { tokens := (cfg.capacity : ℚ), lastRefill := now }) hb.1 hb.2
  unfold RateLimiter.checkTokenBucket
  by_cases hdraft : cfg.draftMode
  · simp only [Bool.and_eq_true]
    simp only [hdraft, if_true, Bool.not_true, Bool.and_false, Bool.false_eq_true, if_false]
    exact h1
  · simp only [eq_false_of_ne_true hdraft, Bool.false_eq_true, if_false, Bool.not_false,
      Bool.and_true]
    by_cases hone : (1 : ℚ) ≤ (RateLimiter.refillBucket cfg now
        (b0.getD { tokens := (cfg.capacity : ℚ), lastRefill := now })).tokens
    · rw [if_pos (by simpa using hone)]
      constructor <;> dsimp only <;> linarith [h1.1, h1.2, hcap0]
    · rw [if_neg (by simpa using hone)]
      exact h1

/-- Every public operation preserves the C5 invariant. -/
theorem applyOp_preserves_bucketInv (cfg : Config) (s : RateLimiter.KeyState)
    (op : RateLimiter.Op) (h : BucketInv cfg s) : BucketInv cfg (RateLimiter.applyOp cfg s op) := by
  have hcheck : ∀ now : Int, BucketInv cfg
      { mem := s.mem, bucket := some (RateLimiter.checkTokenBucket cfg now s.bucket).2 } := by
    intro now b hb
    simp only [Option.some.injEq] at hb
    subst hb
    exact checkTokenBucket_preserves_bounds cfg now s.bucket h
  cases op with
  | check now =>
    unfold RateLimiter.applyOp RateLimiter.check
    by_cases h0 : cfg.maxRequests = 0
    · simpa [h0] using h
    · by_cases hs : cfg.algorithm = Alg.slidingWindow
      · simp only [h0, if_false, hs, if_true]
        intro b hb
        exact h b hb
      · by_cases ht : cfg.algorithm = Alg.tokenBucket
        · simp only [h0, if_false, hs, ht, if_true]
          exact hcheck now
        · simp only [h0, if_false, hs, ht]
          intro b hb
          exact h b hb
  | consume now =>
    unfold RateLimiter.applyOp RateLimiter.consume
    by_cases hs : cfg.algorithm = Alg.slidingWindow
    · simp only [hs, if_true]
      intro b hb
      exact h b hb
    · by_cases ht : cfg.algorithm = Alg.tokenBucket
      · simp only [hs, if_false, ht, if_true]
        exact hcheck now
      · simp only [hs, ht, if_false]
        intro b hb
        exact h b hb
  | reset =>
    unfold RateLimiter.applyOp RateLimiter.reset
    by_cases ht : cfg.algorithm = Alg.tokenBucket
    · simp [ht, BucketInv]
    · simp only [ht, if_false]
      intro b hb
      exact h b hb
  | resetAll now =>
    unfold RateLimiter.applyOp RateLimiter.resetAll
    by_cases ht : cfg.algorithm = Alg.tokenBucket
    · simp [ht, BucketInv]
    · simp only [ht, if_false]
      intro b hb
      exact h b hb
  | dispose =>
    unfold RateLimiter.applyOp RateLimiter.dispose
    simp [BucketInv]

/-- C5: for every key, every sequence of public operations and every sequence
of observed clock values (monotone or not), the engine's token-bucket state
stays within `0 ≤ tokens ≤ capacity`, given `windowMs > 0` and
`maxRequests ≥ 1`. -/
theorem c5_tokens_never_leave_bounds (cfg : Config) (hw : 0 < cfg.windowMs)
    (hm : 1 ≤ cfg.maxRequests) (ops : List RateLimiter.Op) :
    BucketInv cfg (RateLimiter.runOps cfg ops RateLimiter.KeyState.fresh) := by
  have main : ∀ (l : List RateLimiter.Op) (s : RateLimiter.KeyState), BucketInv cfg s →
      BucketInv cfg (RateLimiter.runOps cfg l s) := by
    intro l
    induction l with
    | nil => intro s hs; exact hs
    | cons op rest ih =>
      intro s hs
      exact ih _ (applyOp_preserves_bucketInv cfg s op hs)
  refine main ops RateLimiter.KeyState.fresh ?_
  intro b hb
  simp [RateLimiter.KeyState.fresh] at hb

/-- Witness for C5: a concrete non-monotone clock run (checks at times 0, 5,
then 1, plus a consume, resetAll and dispose) on a capacity-3 bucket. -/
theorem c5_witness :
    BucketInv { windowMs := 100, maxRequests := 3, algorithm := Alg.tokenBucket, draftMode := false }
      (RateLimiter.runOps
        { windowMs := 100, maxRequests := 3, algorithm := Alg.tokenBucket, draftMode := false }
        [RateLimiter.Op.check 0, RateLimiter.Op.check 5, RateLimiter.Op.check 1,
         RateLimiter.Op.consume 7, RateLimiter.Op.resetAll 8, RateLimiter.Op.dispose]
        RateLimiter.KeyState.fresh) :=
  c5_tokens_never_leave_bounds
    { windowMs := 100, maxRequests := 3, algorithm := Alg.tokenBucket, draftMode := false }
    (by decide) (by decide) _

/-! ## Claim C8: draft mode. The claim as stated is false on two points: the
`maxRequests = 0` short-circuit fires before the draft-mode override, so a
draft-mode engine with ceiling 0 still denies; and the token-bucket path skips
token consumption in draft mode, so its stored state (and the reported
`current`) differ from the non-draft call. -/

/-- Counterexample to C8 as stated: (a) with `maxRequests = 0` and draft mode
enabled, a check is denied rather than allowed; (b) in token-bucket mode a
draft check consumes no token, so the stored bucket and the reported
`current` differ from the same call with draft mode disabled. -/
theorem c8_counterexample :
    (RateLimiter.check
        { windowMs := 1000, maxRequests := 0, algorithm := Alg.fixedWindow, draftMode := true }
        0 RateLimiter.KeyState.fresh).1.allowed = false
    ∧ ((RateLimiter.check
          { windowMs := 1000, maxRequests := 5, algorithm := Alg.tokenBucket, draftMode := true }
          0 RateLimiter.KeyState.fresh).2.bucket
        ≠ (RateLimiter.check
          { windowMs := 1000, maxRequests := 5, algorithm := Alg.tokenBucket, draftMode := false }
          0 RateLimiter.KeyState.fresh).2.bucket)
    ∧ ((RateLimiter.check
          { windowMs := 1000, maxRequests := 5, algorithm := Alg.tokenBucket, draftMode := true }
          0 RateLimiter.KeyState.fresh).1.current
        ≠ (RateLimiter.check
          { windowMs := 1000, maxRequests := 5, algorithm := Alg.tokenBucket, draftMode := false }
          0 RateLimiter.KeyState.fresh).1.current) := by
  refine ⟨rfl, ?_, ?_⟩ <;>
    · norm_num [RateLimiter.check, RateLimiter.checkTokenBucket, RateLimiter.refillBucket,
        Config.refillRate, Config.capacity, RateLimiter.KeyState.fresh]
      decide

/-- C8 amended: with draft mode enabled and a nonzero ceiling, every check is
allowed; under the fixed- and sliding-window algorithms the reported `current`
and `resetTime` and the stored per-key state are exactly those of the same
call with draft mode disabled. (Under token-bucket, draft mode skips the
consumption step, so state and `current` may differ — see the
counterexample.) -/
theorem c8_amended_draft_accounting (cfg : Config) (hd : cfg.draftMode = true)
    (hm : cfg.maxRequests ≠ 0) (now : Int) (s : RateLimiter.KeyState) :
    (RateLimiter.check cfg now s).1.allowed = true
    ∧ (cfg.algorithm ≠ Alg.tokenBucket →
        (RateLimiter.check cfg now s).1.current
            = (RateLimiter.check { cfg with draftMode := false } now s).1.current
        ∧ (RateLimiter.check cfg now s).1.resetTime
            = (RateLimiter.check { cfg with draftMode := false } now s).1.resetTime
        ∧ (RateLimiter.check cfg now s).2
            = (RateLimiter.check { cfg with draftMode := false } now s).2) := by
  obtain ⟨w, m, alg, d⟩ := cfg
  simp only at hd hm
  subst hd
  cases alg with
  | fixedWindow =>
    refine ⟨?_, fun _ => ?_⟩
    · unfold RateLimiter.check RateLimiter.checkFixedWindow
      simp [hm]
    · refine ⟨?_, ?_, ?_⟩ <;>
        · unfold RateLimiter.check RateLimiter.checkFixedWindow
          simp [hm]
  | slidingWindow =>
    refine ⟨?_, fun _ => ?_⟩
    · unfold RateLimiter.check RateLimiter.checkSlidingWindow
      simp [hm]
    · refine ⟨?_, ?_, ?_⟩ <;>
        · unfold RateLimiter.check RateLimiter.checkSlidingWindow
          simp [hm]
  | tokenBucket =>
    refine ⟨?_, fun hne => absurd rfl hne⟩
    unfold RateLimiter.check RateLimiter.checkTokenBucket
    simp [hm]

/-- Witness for the amended C8: draft mode with ceiling 1 allows the second
call on the same key within the window. -/
theorem c8_amended_witness :
    (RateLimiter.check
        { windowMs := 1000, maxRequests := 1, algorithm := Alg.fixedWindow, draftMode := true }
        5 { mem := { record := some { count := 1, resetTime := 1000 }, timestamps := [0] },
            bucket := none }).1.allowed = true :=
  (c8_amended_draft_accounting
      { windowMs := 1000, maxRequests := 1, algorithm := Alg.fixedWindow, draftMode := true }
      rfl (by decide) 5
      { mem := { record := some { count := 1, resetTime := 1000 }, timestamps := [0] },
        bucket := none }).1

/-! ## Claim C9: reset makes the next call behave like the very first call. -/

/-- On every reachable state of a non-token-bucket engine the `tokenBuckets`
entry of a key is absent: only `checkTokenBucket` ever inserts one, and the
engine dispatches to it only when the algorithm is `token-bucket`. -/
theorem runOps_bucket_none (cfg : Config) (h : cfg.algorithm ≠ Alg.tokenBucket)
    (ops : List RateLimiter.Op) :
    (RateLimiter.runOps cfg ops RateLimiter.KeyState.fresh).bucket = none := by
  have step : ∀ (s : RateLimiter.KeyState) (op : RateLimiter.Op), s.bucket = none →
      (RateLimiter.applyOp cfg s op).bucket = none := by
    intro s op hs
    cases op with
    | check now =>
      unfold RateLimiter.applyOp RateLimiter.check
      by_cases h0 : cfg.maxRequests = 0
      · simp [h0, hs]
      · by_cases hsl : cfg.algorithm = Alg.slidingWindow
        · simp [h0, hsl, RateLimiter.checkSlidingWindow, hs]
        · simp [h0, hsl, h, RateLimiter.checkFixedWindow, hs]
    | consume now =>
      unfold RateLimiter.applyOp RateLimiter.consume
      by_cases hsl : cfg.algorithm = Alg.slidingWindow
      · simp [hsl, RateLimiter.checkSlidingWindow, hs]
      · simp [hsl, h, RateLimiter.checkFixedWindow, hs]
    | reset =>
      unfold RateLimiter.applyOp RateLimiter.reset
      simp [h, hs]
    | resetAll now =>
      unfold RateLimiter.applyOp RateLimiter.resetAll
      simp [h, hs]
    | dispose =>
      unfold RateLimiter.applyOp RateLimiter.dispose
      simp
  have main : ∀ (l : List RateLimiter.Op) (s : RateLimiter.KeyState), s.bucket = none →
      (RateLimiter.runOps cfg l s).bucket = none := by
    intro l
    induction l with
    | nil => intro s hs; exact hs
    | cons op rest ih => intro s hs; exact ih _ (step s op hs)
  exact main ops RateLimiter.KeyState.fresh rfl

/-- C9: for every algorithm and every prior history of public operations on
the key, `reset` returns the key to the untouched state, so the immediately
following check returns the very same decision record and leaves the very
same per-key state as the first call on a completely fresh key. -/
theorem c9_reset_restores_first_call (cfg : Config) (ops : List RateLimiter.Op) (now : Int) :
    RateLimiter.reset cfg (RateLimiter.runOps cfg ops RateLimiter.KeyState.fresh)
        = RateLimiter.KeyState.fresh
    ∧ RateLimiter.check cfg now
        (RateLimiter.reset cfg (RateLimiter.runOps cfg ops RateLimiter.KeyState.fresh))
      = RateLimiter.check cfg now RateLimiter.KeyState.fresh := by
  have h1 : RateLimiter.reset cfg (RateLimiter.runOps cfg ops RateLimiter.KeyState.fresh)
      = RateLimiter.KeyState.fresh := by
    unfold RateLimiter.reset MemoryStorage.reset
    by_cases ht : cfg.algorithm = Alg.tokenBucket
    · simp [ht, RateLimiter.KeyState.fresh]
    · simp only [ht, if_false]
      have h2 := runOps_bucket_none cfg ht ops
      show ({ mem := MemoryStorage.KeyState.fresh,
              bucket := (RateLimiter.runOps cfg ops RateLimiter.KeyState.fresh).bucket }
            : RateLimiter.KeyState) = RateLimiter.KeyState.fresh
      rw [h2]
      rfl
  exact ⟨h1, by rw [h1]⟩

/-! ## Claim C10: resetAll only cleans up; live fixed/sliding window state
survives it, and only token-bucket mode clears per-key engine state. -/

/-- C10: under the fixed-window algorithm with the in-memory store,
`resetAll` leaves a window record whose `resetTime` has not passed unchanged
and only prunes log timestamps older than the one-hour retention horizon; a
check immediately afterwards (still within the window) continues counting
from the previous count instead of starting at 1; the sliding count is also
unchanged whenever the window reaches back no further than the retention
horizon; and only in token-bucket mode does `resetAll` clear the per-key
engine state (the bucket entry). -/
theorem c10_resetAll_keeps_live_records (cfg : Config) (now t' : Int)
    (s : RateLimiter.KeyState) (r : WindowRecord)
    (hr : s.mem.record = some r) (hlive : now ≤ r.resetTime)
    (halg : cfg.algorithm = Alg.fixedWindow) (hm : cfg.maxRequests ≠ 0)
    (ht' : t' ≤ r.resetTime) :
    ((RateLimiter.resetAll cfg now s).mem.record = some r)
    ∧ ((RateLimiter.resetAll cfg now s).mem.timestamps
        = s.mem.timestamps.filter fun time => decide (now - 3600000 < time))
    ∧ ((RateLimiter.check cfg t' (RateLimiter.resetAll cfg now s)).1.current
        = ((r.count : Int) + 1))
    ∧ (∀ s' : RateLimiter.KeyState,
        (RateLimiter.resetAll { cfg with algorithm := Alg.tokenBucket } now s').bucket = none)
    ∧ (now - 3600000 ≤ t' - cfg.windowMs →
        MemoryStorage.getSlidingWindowCount cfg.windowMs t'
            (MemoryStorage.cleanExpired now s.mem)
          = MemoryStorage.getSlidingWindowCount cfg.windowMs t' s.mem) := by
  have htb : cfg.algorithm ≠ Alg.tokenBucket := by
    rw [halg]
    intro hcontra
    exact Alg.noConfusion hcontra
  have hrec : (RateLimiter.resetAll cfg now s).mem.record = some r := by
    unfold RateLimiter.resetAll MemoryStorage.cleanExpired
    simp only [htb, if_false, hr]
    simp [not_lt.mpr hlive]
  refine ⟨hrec, ?_, ?_, ?_, ?_⟩
  · unfold RateLimiter.resetAll MemoryStorage.cleanExpired
    simp [htb]
  · unfold RateLimiter.check
    simp only [hm, if_false, halg]
    unfold RateLimiter.checkFixedWindow MemoryStorage.increment
    rw [hrec]
    simp [not_lt.mpr ht', halg]
  · intro s'
    unfold RateLimiter.resetAll
    simp
  · intro hret
    unfold MemoryStorage.getSlidingWindowCount MemoryStorage.cleanExpired
    dsimp only
    rw [List.filter_filter]
    congr 1
    apply List.filter_congr
    intro x _
    by_cases hx : t' - cfg.windowMs < x
    · have hq : now - 3600000 < x := by omega
      simp [hx, hq]
    · simp [hx]

/-- Witness for C10: a record live until 5000 survives a `resetAll` at 1000
and the following check at 1500 continues counting (3 after a stored 2). -/
theorem c10_witness :
    (RateLimiter.check
        { windowMs := 1000, maxRequests := 9, algorithm := Alg.fixedWindow, draftMode := false }
        1500
        (RateLimiter.resetAll
          { windowMs := 1000, maxRequests := 9, algorithm := Alg.fixedWindow, draftMode := false }
          1000
          { mem := { record := some { count := 2, resetTime := 5000 }, timestamps := [900, 950] },
            bucket := none })).1.current = ((2 : Int) + 1) :=
  (c10_resetAll_keeps_live_records
      { windowMs := 1000, maxRequests := 9, algorithm := Alg.fixedWindow, draftMode := false }
      1000 1500
      { mem := { record := some { count := 2, resetTime := 5000 }, timestamps := [900, 950] },
        bucket := none }
      { count := 2, resetTime := 5000 } rfl (by decide) rfl (by decide) (by decide)).2.2.1

/-! ## Claim C1: progressive counting within one window. -/

/-- Unfolding `runChecks` on a cons: one `check` followed by the rest. -/
theorem runChecks_cons_eq (cfg : Config) (t : Int) (ts : List Int) (s : RateLimiter.KeyState) :
    RateLimiter.runChecks cfg (t :: ts) s
      = ((RateLimiter.check cfg t s).1
            :: (RateLimiter.runChecks cfg ts (RateLimiter.check cfg t s).2).1,
         (RateLimiter.runChecks cfg ts (RateLimiter.check cfg t s).2).2) := rfl

/-- With `maxRequests = 0`, `check` denies unconditionally and leaves the
state untouched. -/
theorem check_deny_all_eq (cfg : Config) (h0 : cfg.maxRequests = 0) (t : Int)
    (s : RateLimiter.KeyState) :
    RateLimiter.check cfg t s
      = ({ allowed := false, current := 1, limit := 0,
           remaining := cfg.windowMs, resetTime := t + cfg.windowMs }, s) := by
  unfold RateLimiter.check
  simp [h0]

/-- A fixed-window `check` on a live record bumps the count. -/
theorem check_fixed_live_eq (cfg : Config) (hm : cfg.maxRequests ≠ 0)
    (halg : cfg.algorithm = Alg.fixedWindow) (t R : Int) (k : Nat) (tms : List Int)
    (b : Option Bucket) (ht : ¬ R < t) :
    RateLimiter.check cfg t
        { mem := { record := some { count := k, resetTime := R }, timestamps := tms }, bucket := b }
      = ({ allowed := if cfg.draftMode then true else decide (k + 1 ≤ cfg.maxRequests),
           current := ((k + 1 : Nat) : Int),
           limit := cfg.maxRequests,
           remaining := max 0 (R - t),
           resetTime := R },
         { mem := { record := some { count := k + 1, resetTime := R }, timestamps := tms ++ [t] },
           bucket := b }) := by
  have hns : cfg.algorithm ≠ Alg.slidingWindow := by
    rw [halg]; exact fun hcon => Alg.noConfusion hcon
  have hnt : cfg.algorithm ≠ Alg.tokenBucket := by
    rw [halg]; exact fun hcon => Alg.noConfusion hcon
  unfold RateLimiter.check RateLimiter.checkFixedWindow MemoryStorage.increment
  simp [hm, hns, hnt, ht]

/-- A fixed-window `check` on a fresh (or rolled-over) key installs a count-1
record. -/
theorem check_fixed_fresh_eq (cfg : Config) (hm : cfg.maxRequests ≠ 0)
    (halg : cfg.algorithm = Alg.fixedWindow) (t : Int) (tms : List Int) (b : Option Bucket) :
    RateLimiter.check cfg t { mem := { record := none, timestamps := tms }, bucket := b }
      = ({ allowed := if cfg.draftMode then true else decide (1 ≤ cfg.maxRequests),
           current := ((1 : Nat) : Int),
           limit := cfg.maxRequests,
           remaining := max 0 (t + cfg.windowMs - t),
           resetTime := t + cfg.windowMs },
         { mem := { record := some { count := 1, resetTime := t + cfg.windowMs },
                    timestamps := [t] },
           bucket := b }) := by
  have hns : cfg.algorithm ≠ Alg.slidingWindow := by
    rw [halg]; exact fun hcon => Alg.noConfusion hcon
  have hnt : cfg.algorithm ≠ Alg.tokenBucket := by
    rw [halg]; exact fun hcon => Alg.noConfusion hcon
  unfold RateLimiter.check RateLimiter.checkFixedWindow MemoryStorage.increment
  simp [hm, hns, hnt]

/-- A sliding-window `check` on a live record appends the hit and reports the
filtered log length. -/
theorem check_sliding_live_eq (cfg : Config) (hm : cfg.maxRequests ≠ 0)
    (halg : cfg.algorithm = Alg.slidingWindow) (t R : Int) (k : Nat) (tms : List Int)
    (b : Option Bucket) (ht : ¬ R < t) :
    RateLimiter.check cfg t
        { mem := { record := some { count := k, resetTime := R }, timestamps := tms }, bucket := b }
      = ({ allowed := if cfg.draftMode then true
             else decide (((tms ++ [t]).filter fun x =>
                 decide (t - cfg.windowMs < x)).length ≤ cfg.maxRequests),
           current := ((((tms ++ [t]).filter fun x =>
                 decide (t - cfg.windowMs < x)).length : Nat) : Int),
           limit := cfg.maxRequests,
           remaining := cfg.windowMs,
           resetTime := t + cfg.windowMs },
         { mem := { record := some { count := k + 1, resetTime := R }, timestamps := tms ++ [t] },
           bucket := b }) := by
  unfold RateLimiter.check RateLimiter.checkSlidingWindow MemoryStorage.increment
    MemoryStorage.getSlidingWindowCount
  simp [hm, halg, ht]

/-- A sliding-window `check` on a fresh key records the hit and reports the
filtered singleton log length. -/
theorem check_sliding_fresh_eq (cfg : Config) (hm : cfg.maxRequests ≠ 0)
    (halg : cfg.algorithm = Alg.slidingWindow) (t : Int) (tms : List Int) (b : Option Bucket) :
    RateLimiter.check cfg t { mem := { record := none, timestamps := tms }, bucket := b }
      = ({ allowed := if cfg.draftMode then true
             else decide ((([t]).filter fun x =>
                 decide (t - cfg.windowMs < x)).length ≤ cfg.maxRequests),
           current := (((([t]).filter fun x =>
                 decide (t - cfg.windowMs < x)).length : Nat) : Int),
           limit := cfg.maxRequests,
           remaining := cfg.windowMs,
           resetTime := t + cfg.windowMs },
         { mem := { record := some { count := 1, resetTime := t + cfg.windowMs },
                    timestamps := [t] },
           bucket := b }) := by
  unfold RateLimiter.check RateLimiter.checkSlidingWindow MemoryStorage.increment
    MemoryStorage.getSlidingWindowCount
  simp [hm, halg]

/-- Fixed-window progression: starting from a live record with count `k`
whose window covers every remaining call time, the `i`-th subsequent call is
allowed iff `k + i + 1 ≤ maxRequests` and reports `current = k + i + 1`. -/
theorem runChecks_fixed_progress (cfg : Config) (hm : cfg.maxRequests ≠ 0)
    (halg : cfg.algorithm = Alg.fixedWindow) (hd : cfg.draftMode = false) (R : Int)
    (ts : List Int) :
    ∀ (k : Nat) (tms : List Int) (b : Option Bucket), (∀ t ∈ ts, t ≤ R) →
      ∀ i, i < ts.length →
        ((RateLimiter.runChecks cfg ts
              { mem := { record := some { count := k, resetTime := R }, timestamps := tms },
                bucket := b }).1.getD i default).allowed
            = decide (k + i + 1 ≤ cfg.maxRequests)
        ∧ ((RateLimiter.runChecks cfg ts
              { mem := { record := some { count := k, resetTime := R }, timestamps := tms },
                bucket := b }).1.getD i default).current
            = ((k + i + 1 : Nat) : Int) := by
  induction ts with
  | nil =>
    intro k tms b hts i hi
    simp at hi
  | cons t rest ih =>
    intro k tms b hts i hi
    rw [runChecks_cons_eq,
      check_fixed_live_eq cfg hm halg t R k tms b (not_lt.mpr (hts t (by simp)))]
    cases i with
    | zero =>
      simp [hd]
    | succ j =>
      have hj : j < rest.length := by simpa using hi
      have hrest : ∀ t' ∈ rest, t' ≤ R := fun t' ht' => hts t' (by simp [ht'])
      have hih := ih (k + 1) (tms ++ [t]) b hrest j hj
      have harith : k + 1 + j + 1 = k + (j + 1) + 1 := by omega
      simp only [List.getD_cons_succ]
      rw [← harith]
      exact hih

/-- Sliding-window progression: starting from a live record whose log holds
one timestamp per previous call, all at least `t0`, with every remaining call
inside `[t0, t0 + windowMs)`, the `i`-th subsequent call is allowed iff
`|log| + i + 1 ≤ maxRequests` and reports `current = |log| + i + 1`. -/
theorem runChecks_sliding_progress (cfg : Config) (hm : cfg.maxRequests ≠ 0)
    (halg : cfg.algorithm = Alg.slidingWindow) (hd : cfg.draftMode = false) (t0 : Int)
    (ts : List Int) :
    ∀ (tms : List Int) (b : Option Bucket), (∀ x ∈ tms, t0 ≤ x) →
      (∀ t ∈ ts, t0 ≤ t ∧ t < t0 + cfg.windowMs) →
      ∀ i, i < ts.length →
        ((RateLimiter.runChecks cfg ts
              { mem := { record := some { count := tms.length, resetTime := t0 + cfg.windowMs },
                         timestamps := tms },
                bucket := b }).1.getD i default).allowed
            = decide (tms.length + i + 1 ≤ cfg.maxRequests)
        ∧ ((RateLimiter.runChecks cfg ts
              { mem := { record := some { count := tms.length, resetTime := t0 + cfg.windowMs },
                         timestamps := tms },
                bucket := b }).1.getD i default).current
            = ((tms.length + i + 1 : Nat) : Int) := by
  induction ts with
  | nil =>
    intro tms b htms hts i hi
    simp at hi
  | cons t rest ih =>
    intro tms b htms hts i hi
    have htw : ¬ t0 + cfg.windowMs < t := not_lt.mpr (le_of_lt (hts t (by simp)).2)
    have hfil : ((tms ++ [t]).filter fun x => decide (t - cfg.windowMs < x)) = tms ++ [t] := by
      apply List.filter_eq_self.mpr
      intro x hx
      rw [decide_eq_true_eq]
      rcases List.mem_append.mp hx with hx1 | hx2
      · have h1 := htms x hx1
        have h2 := (hts t (by simp)).2
        omega
      · have hx3 : x = t := by simpa using hx2
        have h2 := (hts t (by simp)).1
        have h3 := (hts t (by simp)).2
        omega
    rw [runChecks_cons_eq,
      check_sliding_live_eq cfg hm halg t (t0 + cfg.windowMs) tms.length tms b htw]
    cases i with
    | zero =>
      simp [hd, hfil]
    | succ j =>
      have hj : j < rest.length := by simpa using hi
      have htms' : ∀ x ∈ tms ++ [t], t0 ≤ x := by
        intro x hx
        rcases List.mem_append.mp hx with hx1 | hx2
        · exact htms x hx1
        · have hx3 : x = t := by simpa using hx2
          rw [hx3]
          exact (hts t (by simp)).1
      have hrest : ∀ t' ∈ rest, t0 ≤ t' ∧ t' < t0 + cfg.windowMs :=
        fun t' ht' => hts t' (by simp [ht'])
      have hih := ih (tms ++ [t]) b htms' hrest j hj
      have hlen : (tms ++ [t]).length = tms.length + 1 := by simp
      have harith : tms.length + 1 + j + 1 = tms.length + (j + 1) + 1 := by omega
      simp only [List.getD_cons_succ]
      rw [hlen, harith] at hih
      exact hih

/-- C1: under the fixed-window or sliding-window algorithm with the in-memory
store and draft mode off, for a fresh key and calls all within one window
(times in `[t0, t0 + windowMs)`, first call at `t0`): every call with 1-based
index `N ≤ maxRequests` is allowed with `current = N`, and call number
`maxRequests + 1` is denied. -/
theorem c1_window_counting (cfg : Config)
    (halg : cfg.algorithm = Alg.fixedWindow ∨ cfg.algorithm = Alg.slidingWindow)
    (hd : cfg.draftMode = false) (t0 : Int) (ts : List Int)
    (hhead : ts.head? = some t0)
    (hin : ∀ t ∈ ts, t0 ≤ t ∧ t < t0 + cfg.windowMs)
    (i : Nat) (hi : i < ts.length) :
    (i + 1 ≤ cfg.maxRequests →
      ((RateLimiter.runChecks cfg ts RateLimiter.KeyState.fresh).1.getD i default).allowed = true
      ∧ ((RateLimiter.runChecks cfg ts RateLimiter.KeyState.fresh).1.getD i default).current
          = ((i + 1 : Nat) : Int))
    ∧ (i + 1 = cfg.maxRequests + 1 →
      ((RateLimiter.runChecks cfg ts RateLimiter.KeyState.fresh).1.getD i default).allowed
        = false) := by
  by_cases hm : cfg.maxRequests = 0
  · constructor
    · intro hle
      omega
    · intro heq
      have hi0 : i = 0 := by omega
      subst hi0
      cases ts with
      | nil => simp at hi
      | cons t rest =>
        rw [runChecks_cons_eq, check_deny_all_eq cfg hm t]
        simp
  · cases ts with
    | nil => simp at hi
    | cons t rest =>
      have ht0 : t0 = t := by
        have h1 : t = t0 := by simpa using hhead
        omega
      subst ht0
      have hw : 0 < cfg.windowMs := by
        have h1 := (hin t0 (by simp)).2
        omega
      have hrest : ∀ t' ∈ rest, t0 ≤ t' ∧ t' < t0 + cfg.windowMs :=
        fun t' ht' => hin t' (by simp [ht'])
      have hkey : ((RateLimiter.runChecks cfg (t0 :: rest)
            RateLimiter.KeyState.fresh).1.getD i default).allowed
          = decide (i + 1 ≤ cfg.maxRequests)
        ∧ ((RateLimiter.runChecks cfg (t0 :: rest)
            RateLimiter.KeyState.fresh).1.getD i default).current = ((i + 1 : Nat) : Int) := by
        rcases halg with hfix | hsli
        · rw [show RateLimiter.KeyState.fresh
              = { mem := { record := none, timestamps := [] }, bucket := none } from rfl,
            runChecks_cons_eq, check_fixed_fresh_eq cfg hm hfix t0 [] none]
          cases i with
          | zero => simp [hd]
          | succ j =>
            have hj : j < rest.length := by simpa using hi
            have hts : ∀ t' ∈ rest, t' ≤ t0 + cfg.windowMs :=
              fun t' ht' => le_of_lt (hrest t' ht').2
            have hih := runChecks_fixed_progress cfg hm hfix hd (t0 + cfg.windowMs) rest
              1 [t0] none hts j hj
            have harith : 1 + j + 1 = j + 1 + 1 := by omega
            simp only [List.getD_cons_succ]
            rw [harith] at hih
            exact hih
        · rw [show RateLimiter.KeyState.fresh
              = { mem := { record := none, timestamps := [] }, bucket := none } from rfl,
            runChecks_cons_eq, check_sliding_fresh_eq cfg hm hsli t0 [] none]
          cases i with
          | zero =>
            have hfil : (([t0]).filter fun x => decide (t0 - cfg.windowMs < x)) = [t0] := by
              apply List.filter_eq_self.mpr
              intro x hx
              have hx1 : x = t0 := by simpa using hx
              rw [decide_eq_true_eq, hx1]
              omega
            simp [hd, hfil]
          | succ j =>
            have hj : j < rest.length := by simpa using hi
            have htms : ∀ x ∈ [t0], t0 ≤ x := by
              intro x hx
              have hx1 : x = t0 := by simpa using hx
              omega
            have hih := runChecks_sliding_progress cfg hm hsli hd t0 rest
              [t0] none htms hrest j hj
            have hlen : ([t0] : List Int).length = 1 := rfl
            have harith : 1 + j + 1 = j + 1 + 1 := by omega
            rw [hlen, harith] at hih
            simp only [List.getD_cons_succ]
            exact hih
      constructor
      · intro hle
        rw [hkey.1, hkey.2]
        simp [hle]
      · intro heq
        rw [hkey.1]
        simp
        omega

/-- Witness for C1: window 1000 ms, ceiling 2, fixed window, calls at 0, 10,
20: the third call (index 2 = ceiling + 1) is denied. -/
theorem c1_witness :
    ((RateLimiter.runChecks
        { windowMs := 1000, maxRequests := 2, algorithm := Alg.fixedWindow, draftMode := false }
        [0, 10, 20] RateLimiter.KeyState.fresh).1.getD 2 default).allowed = false :=
  (c1_window_counting
      { windowMs := 1000, maxRequests := 2, algorithm := Alg.fixedWindow, draftMode := false }
      (Or.inl rfl) rfl 0 [0, 10, 20] rfl (by decide) 2 (by decide)).2 (by decide)

/-! ## Claim C2: sliding-window checks against a provider without sliding
support. The claim as stated is false: `RedisStorage` always exposes the
`getSlidingWindowCount` member, and when the instance was constructed with
sliding support disabled the member throws at call time, so a sliding-window
check raises rather than degrading — the capability is a per-call member
probe, not a construction-time flag the engine consults. -/

/-- Counterexample to C2 as stated: a sliding-window check against a
`RedisStorage` constructed without sliding support ends in the
unsupported-operation exception thrown when the count is requested (with
`skipFailedRequests` unset, it propagates to the caller). -/
theorem c2_counterexample :
    (RateLimiter.checkE
        { windowMs := 1000, maxRequests := 5, algorithm := Alg.slidingWindow, draftMode := false }
        (RedisStorage.model false) false 0
        { value := none, window := [], windowExpireAt := none } none).1
      = Except.error "Sliding window not enabled for this Redis storage instance" := rfl

/-- C2 amended: the engine probes for the optional `getSlidingWindowCount`
member on every call; when the provider does not expose the member, a
sliding-window check is resolved by silently taking the fixed-window path —
no unsupported-operation exception is involved. (When the member is present
but the provider lacks the capability, as with `RedisStorage` constructed
without sliding support, the member itself throws at call time; see the
counterexample.) -/
theorem c2_amended_absent_member_degrades {σ : Type} (cfg : Config) (st : StorageModel σ)
    (skipFailedRequests : Bool) (hnone : st.slidingWindowCount? = none)
    (halg : cfg.algorithm = Alg.slidingWindow) (now : Int) (s : σ) (b : Option Bucket) :
    RateLimiter.checkE cfg st skipFailedRequests now s b
      = RateLimiter.checkE { cfg with algorithm := Alg.fixedWindow } st
          skipFailedRequests now s b := by
  obtain ⟨w, m, alg, d⟩ := cfg
  simp only at halg
  subst halg
  unfold RateLimiter.checkE RateLimiter.checkSlidingWindowE
  simp [hnone, RateLimiter.checkFixedWindowE, RateLimiter.createAllowedResult]

/-- Witness for the amended C2: against a provider without the optional
member, a sliding-window check coincides with the fixed-window check. -/
theorem c2_amended_witness :
    RateLimiter.checkE
        { windowMs := 1000, maxRequests := 5, algorithm := Alg.slidingWindow, draftMode := false }
        fixedOnlyModel false 0 MemoryStorage.KeyState.fresh none
      = RateLimiter.checkE
        { windowMs := 1000, maxRequests := 5, algorithm := Alg.fixedWindow, draftMode := false }
        fixedOnlyModel false 0 MemoryStorage.KeyState.fresh none :=
  c2_amended_absent_member_degrades
    { windowMs := 1000, maxRequests := 5, algorithm := Alg.slidingWindow, draftMode := false }
    fixedOnlyModel false rfl rfl 0 MemoryStorage.KeyState.fresh none

/-! ## Claim C3: `maxRequests = 0` denies everything without touching
storage. -/

/-- C3: with `maxRequests = 0`, every check — for every algorithm, every
draft-mode setting and every storage provider (even one whose operations
would all fail) — immediately returns `allowed = false` with `limit = 0`,
and both the storage state and the bucket state are returned untouched: the
provider is never consulted. -/
theorem c3_zero_ceiling_denies_without_storage {σ : Type} (cfg : Config)
    (hm : cfg.maxRequests = 0) (st : StorageModel σ) (skipFailedRequests : Bool)
    (now : Int) (s : σ) (b : Option Bucket) :
    RateLimiter.checkE cfg st skipFailedRequests now s b
      = (Except.ok { allowed := false, current := 1, limit := 0,
                     remaining := cfg.windowMs, resetTime := now + cfg.windowMs }, s, b) := by
  unfold RateLimiter.checkE
  simp [hm]

/-- Witness for C3: ceiling 0 with the memory provider denies at once and
leaves the fresh state untouched. -/
theorem c3_witness :
    RateLimiter.checkE
        { windowMs := 1000, maxRequests := 0, algorithm := Alg.tokenBucket, draftMode := true }
        MemoryStorage.model false 0 MemoryStorage.KeyState.fresh none
      = (Except.ok { allowed := false, current := 1, limit := 0,
                     remaining := 1000, resetTime := 1000 },
         MemoryStorage.KeyState.fresh, none) :=
  c3_zero_ceiling_denies_without_storage
    { windowMs := 1000, maxRequests := 0, algorithm := Alg.tokenBucket, draftMode := true }
    rfl MemoryStorage.model false 0 MemoryStorage.KeyState.fresh none

end TsRateLimiter
